import Mathlib

/-!
# go-twitch-online: a shallow embedding of `twitch.go`

The client of `src/twitch.go` is embedded as pure functions over an explicit
client state.

* The registry lock `siMu` is part of the state.  An operation that would wait
  for a lock nobody is going to release yields `none`.
* The helix collaborator (`helix.NewClient`, `hx.GetStreams`) is outside the
  repository and enters as a function argument.
* Handlers are values of arbitrary types `F` and `G`; a check cycle produces
  the list of handler invocations it makes, each labelled with the handler
  that was invoked and the argument it received.
* `time.Duration` and Unix seconds are integers with explicit 64-bit wrapping.
-/

namespace Twitch

/-! ## Data model -/

/-- Stream record (`type Stream helix.Stream`).  The helix type is declared
outside the repository; the program reads `UserID` (in `check`) and `UserName`
(in the example), the other fields are carried along untouched. -/
structure Stream where
  ID : String
  UserID : String
  UserName : String
  deriving DecidableEq, Repr

/-- Params struct for required values (lines 19-22). -/
structure Params where
  ClientID : String
  OAuth : String
  deriving DecidableEq, Repr

/-- State of a `sync.RWMutex`: `w` is true while a writer holds the lock,
`r` counts the readers that hold it. -/
structure RWMutex where
  w : Bool
  r : Nat
  deriving DecidableEq, Repr

/-- Taking the write lock: succeeds when nobody holds the lock; otherwise the
caller waits, which is `none`. -/
def RWMutex.Lock (m : RWMutex) : Option RWMutex :=
  if m.w = false ∧ m.r = 0 then some { m with w := true } else none

/-- Releasing the write lock. -/
def RWMutex.Unlock (m : RWMutex) : RWMutex := { m with w := false }

/-- Taking a read lock: succeeds when no writer holds the lock. -/
def RWMutex.RLock (m : RWMutex) : Option RWMutex :=
  if m.w = false then some { m with r := m.r + 1 } else none

/-- Releasing a read lock. -/
def RWMutex.RUnlock (m : RWMutex) : RWMutex := { m with r := m.r - 1 }

/-- A mutex that nobody holds. -/
def RWMutex.free (m : RWMutex) : Prop := m.w = false ∧ m.r = 0

instance (m : RWMutex) : Decidable m.free := by
  unfold RWMutex.free; exact inferInstance

/-- Buffered channel of `struct{}` values: capacity and number of pending
values. -/
structure Chan where
  cap : Nat
  len : Nat
  deriving DecidableEq, Repr

/-- Channel creation, `make(chan struct{}, n)`. -/
def Chan.make (n : Nat) : Chan := { cap := n, len := 0 }

/-- Channel send, `ch <- struct{}{}`: buffers the value when there is room,
otherwise the sender waits (`none`). -/
def Chan.send (ch : Chan) : Option Chan :=
  if ch.len < ch.cap then some { ch with len := ch.len + 1 } else none

/-- One second as a `time.Duration` (nanoseconds). -/
def Second : Int := 1000000000

/-- One minute as a `time.Duration`. -/
def Minute : Int := 60 * Second

/-- Client struct (lines 25-38).  `F` and `G` are the types of online and
offline handlers, `H` the type of helix client handles; a nil function or
pointer is `none`. -/
structure Client (F G H : Type) where
  streamIDs : List String
  siMu : RWMutex
  params : Option Params
  hx : Option H
  stopChan : Chan
  forceCheckChan : Chan
  interval : Int
  onOnlineCallback : Option F
  onOfflineCallback : Option G

/-! ## Rate-limit callback (lines 145-164) -/

/-- Conversion to a signed 64-bit integer (two's complement wrap-around). -/
def int64 (x : Int) : Int := (x + 2 ^ 63) % 2 ^ 64 - 2 ^ 63

/-- The part of `helix.Response` that `rateLimitCallback` reads. -/
structure Response where
  RateLimitRemaining : Int
  RateLimitReset : Int
  deriving DecidableEq, Repr

/-- What one call of `rateLimitCallback` does: the number it prints (if it
prints), the duration it hands to `time.Sleep` (if it sleeps), and the error
it returns (`none` is nil). -/
structure RateLimitRun where
  printed : Option Int
  sleep : Option Int
  err : Option String
  deriving DecidableEq, Repr

/-- Nanoseconds for which `time.Sleep d` suspends the caller: a negative or
zero duration returns immediately. -/
def sleepNanos (d : Int) : Int := if d ≤ 0 then 0 else d

/-- Nanoseconds for which a run of `rateLimitCallback` suspends its caller. -/
def RateLimitRun.suspendedNanos (r : RateLimitRun) : Int :=
  match r.sleep with
  | none => 0
  | some d => sleepNanos d

/-- Embedding of `rateLimitCallback`; `now` is `time.Now().Unix()`. -/
def rateLimitCallback (lastResponse : Response) (now : Int) : RateLimitRun :=
  if lastResponse.RateLimitRemaining > 0 then
    { printed := none, sleep := none, err := none }
  else
    let reset64 := int64 lastResponse.RateLimitReset
    let currentTime := now
    if currentTime < reset64 then
      let timeDiff := int64 (reset64 - currentTime)
      if timeDiff > 0 then
        { printed := some timeDiff, sleep := some (int64 (timeDiff * Second)), err := none }
      else
        { printed := none, sleep := none, err := none }
    else
      { printed := none, sleep := none, err := none }

/-! ## Construction (lines 40-59) -/

/-- The helix options that `New` builds. -/
structure Options where
  ClientID : String
  UserAccessToken : String
  RateLimitFunc : Response → Int → RateLimitRun

/-- Embedding of `New`.  `NewClient` is `helix.NewClient`, which returns a
handle and an error; `params = none` is a nil pointer.  The result is the
pair (client, error) that `New` returns. -/
def New {F G H : Type} (NewClient : Options → Option H × Option String)
    (params : Option Params) : Option (Client F G H) × Option String :=
  match params with
  | none => (none, some "missing option")
  | some p =>
    let (h, err) := NewClient
      { ClientID := p.ClientID, UserAccessToken := p.OAuth, RateLimitFunc := rateLimitCallback }
    (some
      { streamIDs := [],
        siMu := { w := false, r := 0 },
        params := some p,
        hx := h,
        stopChan := Chan.make 1,
        forceCheckChan := Chan.make 1,
        interval := Minute,
        onOnlineCallback := none,
        onOfflineCallback := none },
     err)

/-! ## Registry (lines 61-73) -/

/-- Inner loop of `AddStreamer` (lines 65-69): true when the `return` of line
67 is reached, that is when some registered identifier equals `uid`. -/
def AddStreamer.found (uid : String) : List String → Bool
  | [] => false
  | si :: rest => if uid = si then true else AddStreamer.found uid rest

/-- Outer loop of `AddStreamer` (lines 64-71) over the remaining arguments.
The result is the registry and whether the function returned from inside the
loop (line 67). -/
def AddStreamer.loop : List String → List String → List String × Bool
  | streamIDs, [] => (streamIDs, false)
  | streamIDs, uid :: rest =>
    if AddStreamer.found uid streamIDs then (streamIDs, true)
    else AddStreamer.loop (streamIDs ++ [uid]) rest

/-- Embedding of `Client.AddStreamer`.  The write lock is taken on entry; it
is released on line 72, which the `return` of line 67 does not reach. -/
def Client.AddStreamer {F G H : Type} (c : Client F G H) (userID : List String) :
    Option (Client F G H) :=
  match c.siMu.Lock with
  | none => none
  | some mu =>
    match AddStreamer.loop c.streamIDs userID with
    | (ids, true) => some { c with streamIDs := ids, siMu := mu }
    | (ids, false) => some { c with streamIDs := ids, siMu := mu.Unlock }

/-! ## Setters and signals (lines 75-100) -/

/-- Embedding of `Client.SetInterval`. -/
def Client.SetInterval {F G H : Type} (c : Client F G H) (d : Int) : Client F G H :=
  { c with interval := d }

/-- Embedding of `Client.CheckNow`: a send on the force-check channel. -/
def Client.CheckNow {F G H : Type} (c : Client F G H) : Option (Client F G H) :=
  match c.forceCheckChan.send with
  | none => none
  | some ch => some { c with forceCheckChan := ch }

/-- Embedding of `Client.OnOnlineCallback`. -/
def Client.OnOnlineCallback {F G H : Type} (c : Client F G H) (f : Option F) : Client F G H :=
  { c with onOnlineCallback := f }

/-- Embedding of `Client.OnOfflineCallback`. -/
def Client.OnOfflineCallback {F G H : Type} (c : Client F G H) (f : Option G) : Client F G H :=
  { c with onOfflineCallback := f }

/-- Embedding of `Client.Stop`: a send on the stop channel. -/
def Client.Stop {F G H : Type} (c : Client F G H) : Option (Client F G H) :=
  match c.stopChan.send with
  | none => none
  | some ch => some { c with stopChan := ch }

/-! ## Check cycle (lines 119-143) -/

/-- The query parameters `helix.StreamsParams` that `check` fills in; `Typ`
is the field `Type`. -/
structure StreamsParams where
  First : Int
  Typ : String
  UserIDs : List String
  deriving DecidableEq, Repr

/-- Payload of a streams response (`resp.Data`). -/
structure ManyStreams where
  Streams : List Stream
  deriving DecidableEq, Repr

/-- Response of `GetStreams`. -/
structure StreamsResponse where
  Data : ManyStreams
  deriving DecidableEq, Repr

/-- The collaborator call `c.hx.GetStreams(params)`: given the handle stored
in the client and the parameters it yields a response or an error. -/
abbrev Collaborator (H : Type) := Option H → StreamsParams → Except String StreamsResponse

/-- One handler invocation: the handler invoked and the argument passed. -/
inductive Call (F G : Type) where
  | online (f : F) (stream : Stream)
  | offline (g : G) (channelID : String)
  deriving DecidableEq, Repr

/-- What one check cycle does: the queries it issues and the handler
invocations it makes, in order. -/
structure CheckLog (F G : Type) where
  queries : List StreamsParams
  calls : List (Call F G)

/-- The loop of lines 132-134: every returned stream is stored in the map
under its `UserID`, a later stream replacing an earlier one with the same
key.  The map is a lookup function. -/
def check.buildMap : (String → Option Stream) → List Stream → (String → Option Stream)
  | streams, [] => streams
  | streams, stream :: rest =>
    check.buildMap (fun k => if k = stream.UserID then some stream else streams k) rest

/-- The loop of lines 135-142 over the remaining identifiers; `acc` holds the
invocations made so far. -/
def check.dispatch {F G : Type} (onOnlineCallback : Option F) (onOfflineCallback : Option G)
    (streams : String → Option Stream) : List (Call F G) → List String → List (Call F G)
  | acc, [] => acc
  | acc, s :: rest =>
    match streams s with
    | some stream =>
      -- ok: the first branch runs when an online handler is set, the second never
      match onOnlineCallback with
      | some f =>
        check.dispatch onOnlineCallback onOfflineCallback streams (acc ++ [Call.online f stream]) rest
      | none => check.dispatch onOnlineCallback onOfflineCallback streams acc rest
    | none =>
      -- not ok: the second branch runs when an offline handler is set
      match onOfflineCallback with
      | some g =>
        check.dispatch onOnlineCallback onOfflineCallback streams (acc ++ [Call.offline g s]) rest
      | none => check.dispatch onOnlineCallback onOfflineCallback streams acc rest

/-- The parameters of the query of lines 123-127. -/
def check.params (streamIDs : List String) : StreamsParams :=
  { First := 100, Typ := "live", UserIDs := streamIDs }

/-- Embedding of `Client.check`.  The read lock is taken on entry and released
by the deferred `RUnlock` on every return.  The result is the client
afterwards and the log of the cycle; `none` when the read lock cannot be
taken. -/
def Client.check {F G H : Type} (c : Client F G H) (GetStreams : Collaborator H) :
    Option (Client F G H × CheckLog F G) :=
  match c.siMu.RLock with
  | none => none
  | some mu =>
    let c1 : Client F G H := { c with siMu := mu }
    let p := check.params c1.streamIDs
    match GetStreams c1.hx p with
    | .error _ =>
      some ({ c1 with siMu := c1.siMu.RUnlock }, { queries := [p], calls := [] })
    | .ok resp =>
      let streams := check.buildMap (fun _ => none) resp.Data.Streams
      let calls := check.dispatch c1.onOnlineCallback c1.onOfflineCallback streams [] c1.streamIDs
      some ({ c1 with siMu := c1.siMu.RUnlock }, { queries := [p], calls := calls })

/-! ## Poll loop (lines 102-117) -/

/-- The case that the `select` of the loop takes. -/
inductive LoopEvent where
  | tick
  | stop
  | forceCheck
  deriving DecidableEq, Repr

/-- A step that `Start` performs. -/
inductive Action (F G : Type) where
  | check (log : CheckLog F G)
  | NewTicker (d : Int)
  | tickStop

/-- How a run of `Start` over a finite sequence of events ends: it returns,
it waits (in the `select` for a further event, or for the read lock), or
`time.NewTicker` panics on a non-positive interval. -/
inductive Exit where
  | returned
  | waiting
  | panicked
  deriving DecidableEq, Repr

/-- A run of `Start`: the steps performed, how the run ends, the client at
the end and the events not consumed. -/
structure StartRun (F G H : Type) where
  trace : List (Action F G)
  exit : Exit
  client : Client F G H
  pending : List LoopEvent

/-- The `for`/`select` loop of lines 106-116.  `env k` is the collaborator's
behaviour during the check with number `k`; `k` is the number of the next
check and `trace` the steps performed so far. -/
def Start.loop {F G H : Type} (env : Nat → Collaborator H) :
    Nat → Client F G H → List (Action F G) → List LoopEvent → StartRun F G H
  | _, c, trace, [] => { trace := trace, exit := Exit.waiting, client := c, pending := [] }
  | k, c, trace, LoopEvent.tick :: rest =>
    match c.check (env k) with
    | none => { trace := trace, exit := Exit.waiting, client := c, pending := rest }
    | some (c1, log) => Start.loop env (k + 1) c1 (trace ++ [Action.check log]) rest
  | _, c, trace, LoopEvent.stop :: rest =>
    { trace := trace ++ [Action.tickStop], exit := Exit.returned, client := c, pending := rest }
  | k, c, trace, LoopEvent.forceCheck :: rest =>
    match c.check (env k) with
    | none => { trace := trace, exit := Exit.waiting, client := c, pending := rest }
    | some (c1, log) => Start.loop env (k + 1) c1 (trace ++ [Action.check log]) rest

/-- Embedding of `Client.Start` run on the sequence `events` of cases taken by
the `select`. -/
def Client.Start {F G H : Type} (c : Client F G H) (env : Nat → Collaborator H)
    (events : List LoopEvent) : StartRun F G H :=
  match c.check (env 0) with
  | none => { trace := [], exit := Exit.waiting, client := c, pending := events }
  | some (c1, log) =>
    if c1.interval ≤ 0 then
      { trace := [Action.check log], exit := Exit.panicked, client := c1, pending := events }
    else
      Start.loop env 1 c1 [Action.check log, Action.NewTicker c1.interval] events

/-! ## Operations as data -/

/-- The operations a caller can apply to a client, one at a time. -/
inductive Op (F G H : Type) where
  | AddStreamer (userID : List String)
  | check (GetStreams : Collaborator H)
  | SetInterval (d : Int)
  | OnOnlineCallback (f : Option F)
  | OnOfflineCallback (f : Option G)
  | CheckNow
  | Stop

/-- The client after an operation; `none` when the operation never returns. -/
def Op.run {F G H : Type} : Op F G H → Client F G H → Option (Client F G H)
  | Op.AddStreamer userID, c => c.AddStreamer userID
  | Op.check GetStreams, c => (c.check GetStreams).map Prod.fst
  | Op.SetInterval d, c => some (c.SetInterval d)
  | Op.OnOnlineCallback f, c => some (c.OnOnlineCallback f)
  | Op.OnOfflineCallback f, c => some (c.OnOfflineCallback f)
  | Op.CheckNow, c => c.CheckNow
  | Op.Stop, c => c.Stop

/-- A sequence of `AddStreamer` calls, one after the other; `none` as soon as
one of them never returns. -/
def addAll {F G H : Type} : Client F G H → List (List String) → Option (Client F G H)
  | c, [] => some c
  | c, userID :: rest =>
    match c.AddStreamer userID with
    | none => none
    | some c1 => addAll c1 rest

/-! ## The registry as the specification words it -/

/-- The registry that the specification prescribes after one `Add(ids...)`:
each identifier not already present is appended. -/
def specAdd (registry : List String) (ids : List String) : List String :=
  ids.foldl (fun r uid => if uid ∈ r then r else r ++ [uid]) registry

/-- The registry that the specification prescribes after a sequence of
`Add` calls. -/
def specAddAll (registry : List String) (calls : List (List String)) : List String :=
  calls.foldl specAdd registry

/-! ## Concrete data -/

/-- A helix constructor that rejects an empty client identifier and accepts
every other one. -/
def rejectEmptyID (o : Options) : Option Unit × Option String :=
  if o.ClientID = "" then (none, some "A client ID was not provided but is required")
  else (some (), none)

/-- The client that `New` returns for the credentials of the example program. -/
def exampleClient : Client String String Unit :=
  { streamIDs := [],
    siMu := { w := false, r := 0 },
    params := some { ClientID := "xxxxxxxxxxxxxxx", OAuth := "xxxxxxxxxxxxxxx" },
    hx := some (),
    stopChan := Chan.make 1,
    forceCheckChan := Chan.make 1,
    interval := Minute,
    onOnlineCallback := none,
    onOfflineCallback := none }

/-- A collaborator that reports the given streams as live. -/
def liveOf (streams : List Stream) : Collaborator Unit :=
  fun _ _ => Except.ok { Data := { Streams := streams } }

/-- A collaborator whose query fails. -/
def failing : Collaborator Unit := fun _ _ => Except.error "request failed"

/-! ## The check cycle as the specification words it -/

/-- The record among the returned live records whose identifier is `s`: the
last one returned with that `UserID`, if there is one. -/
def liveRecord (live : List Stream) (s : String) : Option Stream :=
  live.reverse.find? (fun stream => decide (stream.UserID = s))

/-- The handler invocations that the specification prescribes for a cycle: the
snapshot in order, an identifier with a live record giving one online call
with that record when an online handler is registered, an identifier without
one giving one offline call with the identifier when an offline handler is
registered. -/
def expectedCalls {F G : Type} (online : Option F) (offline : Option G) (live : List Stream)
    (snapshot : List String) : List (Call F G) :=
  snapshot.flatMap (fun s =>
    match liveRecord live s with
    | some stream =>
      match online with
      | some f => [Call.online f stream]
      | none => []
    | none =>
      match offline with
      | some g => [Call.offline g s]
      | none => [])

/-- The identifier that a handler invocation is about. -/
def Call.subject {F G : Type} : Call F G → String
  | Call.online _ stream => stream.UserID
  | Call.offline _ channelID => channelID

/-- The log of the check cycle that client `c` runs against `GetStreams`
(empty when the cycle cannot take the read lock). -/
def cycleLog {F G H : Type} (c : Client F G H) (GetStreams : Collaborator H) : CheckLog F G :=
  match c.check GetStreams with
  | some (_, log) => log
  | none => { queries := [], calls := [] }

/-- Number of check cycles among the steps of a run. -/
def countChecks {F G : Type} : List (Action F G) → Nat
  | [] => 0
  | Action.check _ :: rest => countChecks rest + 1
  | Action.NewTicker _ :: rest => countChecks rest
  | Action.tickStop :: rest => countChecks rest

/-- The registry identifiers "a", "aa", "aaa", ... : `n` distinct strings. -/
def manyIDs (n : Nat) : List String :=
  (List.range n).map (fun k => String.mk (List.replicate (k + 1) 'a'))

/-- A live stream record of the channel "A". -/
def streamA : Stream := { ID := "1", UserID := "A", UserName := "a" }

/-- The example client with registry `["A", "B"]` and both handlers set. -/
def watching : Client String String Unit :=
  { exampleClient with
    streamIDs := ["A", "B"],
    onOnlineCallback := some "on",
    onOfflineCallback := some "off" }

/-- Whether an operation registers an online handler. -/
def Op.registersOnline {F G H : Type} : Op F G H → Bool
  | Op.OnOnlineCallback _ => true
  | _ => false

/-- Whether an operation registers an offline handler. -/
def Op.registersOffline {F G H : Type} : Op F G H → Bool
  | Op.OnOfflineCallback _ => true
  | _ => false

/-- A sequence of operations applied one after the other; `none` as soon as
one of them never returns. -/
def runAll {F G H : Type} : List (Op F G H) → Client F G H → Option (Client F G H)
  | [], c => some c
  | op :: rest, c =>
    match op.run c with
    | none => none
    | some c1 => runAll rest c1

/-! ## Registry lemmas -/

theorem RWMutex.Lock_free (m : RWMutex) (h : m.free) : m.Lock = some { m with w := true } := by
  unfold RWMutex.Lock
  exact if_pos h

theorem RWMutex.Lock_eq_some {m mu : RWMutex} (h : m.Lock = some mu) :
    m.free ∧ mu = { m with w := true } := by
  unfold RWMutex.Lock at h
  split at h
  · rename_i hf
    exact ⟨hf, (Option.some.inj h).symm⟩
  · cases h

theorem found_iff (uid : String) (l : List String) :
    AddStreamer.found uid l = true ↔ uid ∈ l := by
  induction l with
  | nil => simp [AddStreamer.found]
  | cons si rest ih =>
    unfold AddStreamer.found
    by_cases h : uid = si
    · simp [h]
    · simp [h, ih]

theorem loop_nodup (userID : List String) :
    ∀ streamIDs : List String, streamIDs.Nodup → (AddStreamer.loop streamIDs userID).1.Nodup := by
  induction userID with
  | nil => intro l h; simpa [AddStreamer.loop] using h
  | cons uid rest ih =>
    intro l h
    unfold AddStreamer.loop
    by_cases hf : AddStreamer.found uid l = true
    · rw [if_pos hf]; exact h
    · rw [if_neg hf]
      apply ih
      have hn : uid ∉ l := fun hm => hf ((found_iff uid l).2 hm)
      rw [List.nodup_append]
      refine ⟨h, List.nodup_singleton uid, ?_⟩
      intro a ha hb
      rw [List.mem_singleton] at hb
      exact hn (hb ▸ ha)

theorem loop_extends (userID : List String) :
    ∀ streamIDs : List String, streamIDs <+: (AddStreamer.loop streamIDs userID).1 := by
  induction userID with
  | nil => intro l; simp [AddStreamer.loop]
  | cons uid rest ih =>
    intro l
    unfold AddStreamer.loop
    by_cases hf : AddStreamer.found uid l = true
    · rw [if_pos hf]
    · rw [if_neg hf]
      exact (List.prefix_append l [uid]).trans (ih (l ++ [uid]))

theorem AddStreamer_streamIDs {F G H : Type} (c c1 : Client F G H) (userID : List String)
    (h : c.AddStreamer userID = some c1) :
    c1.streamIDs = (AddStreamer.loop c.streamIDs userID).1 := by
  unfold Client.AddStreamer at h
  cases hl : c.siMu.Lock with
  | none => rw [hl] at h; cases h
  | some mu =>
    rw [hl] at h
    rcases hloop : AddStreamer.loop c.streamIDs userID with ⟨ids, b⟩
    rw [hloop] at h
    cases b <;> simp at h <;> rw [← h]

theorem AddStreamer_returns {F G H : Type} (c : Client F G H) (userID : List String)
    (h : c.siMu.free) : (c.AddStreamer userID).isSome = true := by
  unfold Client.AddStreamer
  rw [RWMutex.Lock_free _ h]
  rcases AddStreamer.loop c.streamIDs userID with ⟨ids, b⟩
  cases b <;> rfl

theorem check_streamIDs {F G H : Type} (c c1 : Client F G H) (GetStreams : Collaborator H)
    (log : CheckLog F G) (h : c.check GetStreams = some (c1, log)) :
    c1.streamIDs = c.streamIDs := by
  unfold Client.check at h
  cases hl : c.siMu.RLock with
  | none => rw [hl] at h; cases h
  | some mu =>
    rw [hl] at h
    simp only at h
    split at h <;> simp at h <;> rw [← h.1]

theorem Op_run_registry {F G H : Type} (op : Op F G H) (c c1 : Client F G H)
    (h : op.run c = some c1) :
    c1.streamIDs = c.streamIDs ∨ ∃ userID, c1.streamIDs = (AddStreamer.loop c.streamIDs userID).1 := by
  cases op with
  | AddStreamer userID => exact Or.inr ⟨userID, AddStreamer_streamIDs c c1 userID h⟩
  | check GetStreams =>
    left
    simp only [Op.run, Option.map_eq_some'] at h
    obtain ⟨⟨c2, log⟩, h2, rfl⟩ := h
    exact check_streamIDs c c2 GetStreams log h2
  | SetInterval d => left; simp [Op.run, Client.SetInterval] at h; rw [← h]
  | OnOnlineCallback f => left; simp [Op.run, Client.OnOnlineCallback] at h; rw [← h]
  | OnOfflineCallback f => left; simp [Op.run, Client.OnOfflineCallback] at h; rw [← h]
  | CheckNow =>
    left
    simp only [Op.run, Client.CheckNow] at h
    split at h
    · cases h
    · simp at h; rw [← h]
  | Stop =>
    left
    simp only [Op.run, Client.Stop] at h
    split at h
    · cases h
    · simp at h; rw [← h]

theorem check_returns {F G H : Type} (c : Client F G H) (GetStreams : Collaborator H)
    (h : c.siMu.w = false) : (c.check GetStreams).isSome = true := by
  unfold Client.check RWMutex.RLock
  rw [if_pos h]
  simp only
  split <;> rfl

/-! ## Check cycle lemmas -/

theorem check_eq {F G H : Type} (c : Client F G H) (GetStreams : Collaborator H)
    (h : c.siMu.w = false) :
    c.check GetStreams = some (c,
      { queries := [check.params c.streamIDs],
        calls :=
          match GetStreams c.hx (check.params c.streamIDs) with
          | .error _ => []
          | .ok resp =>
            check.dispatch c.onOnlineCallback c.onOfflineCallback
              (check.buildMap (fun _ => none) resp.Data.Streams) [] c.streamIDs }) := by
  cases c with
  | mk ids mu p hx sc fc i f g =>
    cases mu with
    | mk w r =>
      simp only at h
      subst h
      simp only [Client.check, RWMutex.RLock, RWMutex.RUnlock, if_true, Nat.add_sub_cancel]
      cases GetStreams hx (check.params ids) <;> rfl

theorem check_eq_cycleLog {F G H : Type} (c : Client F G H) (GetStreams : Collaborator H)
    (h : c.siMu.w = false) : c.check GetStreams = some (c, cycleLog c GetStreams) := by
  unfold cycleLog
  rw [check_eq c GetStreams h]

theorem liveRecord_cons (stream : Stream) (rest : List Stream) (k : String) :
    liveRecord (stream :: rest) k =
      match liveRecord rest k with
      | some found => some found
      | none => if k = stream.UserID then some stream else none := by
  unfold liveRecord
  rw [List.reverse_cons, List.find?_append]
  cases hf : List.find? (fun stream => decide (stream.UserID = k)) rest.reverse with
  | some found => simp
  | none =>
    by_cases hk : k = stream.UserID
    · simp [hk]
    · have hk2 : ¬ stream.UserID = k := fun e => hk e.symm
      simp [hk, hk2]

theorem buildMap_eq (live : List Stream) :
    ∀ (streams : String → Option Stream) (k : String),
      check.buildMap streams live k =
        match liveRecord live k with
        | some found => some found
        | none => streams k := by
  induction live with
  | nil => intro m k; simp [check.buildMap, liveRecord]
  | cons stream rest ih =>
    intro m k
    unfold check.buildMap
    rw [ih, liveRecord_cons]
    cases liveRecord rest k <;> simp
    split <;> simp_all

theorem buildMap_empty (live : List Stream) (k : String) :
    check.buildMap (fun _ => none) live k = liveRecord live k := by
  rw [buildMap_eq]
  cases liveRecord live k <;> rfl

theorem dispatch_eq {F G : Type} (online : Option F) (offline : Option G) (live : List Stream)
    (snapshot : List String) :
    ∀ acc : List (Call F G),
      check.dispatch online offline (check.buildMap (fun _ => none) live) acc snapshot =
        acc ++ expectedCalls online offline live snapshot := by
  induction snapshot with
  | nil => intro acc; simp [check.dispatch, expectedCalls]
  | cons s rest ih =>
    intro acc
    unfold check.dispatch
    rw [buildMap_empty]
    unfold expectedCalls at ih ⊢
    rw [List.flatMap_cons]
    cases liveRecord live s with
    | some stream =>
      cases online with
      | some f => simp only [ih, List.append_assoc]
      | none => simp only [ih, List.nil_append]
    | none =>
      cases offline with
      | some g => simp only [ih, List.append_assoc]
      | none => simp only [ih, List.nil_append]

theorem liveRecord_some {live : List Stream} {s : String} {stream : Stream}
    (h : liveRecord live s = some stream) : stream ∈ live ∧ stream.UserID = s := by
  unfold liveRecord at h
  have h1 := List.mem_of_find?_eq_some h
  have h2 := List.find?_some h
  exact ⟨List.mem_reverse.1 h1, of_decide_eq_true h2⟩

theorem liveRecord_none (live : List Stream) (s : String) :
    liveRecord live s = none ↔ ∀ stream ∈ live, stream.UserID ≠ s := by
  unfold liveRecord
  rw [List.find?_eq_none]
  simp

theorem expectedCalls_subject {F G : Type} (online : Option F) (offline : Option G)
    (live : List Stream) (snapshot : List String) (call : Call F G)
    (h : call ∈ expectedCalls online offline live snapshot) : call.subject ∈ snapshot := by
  unfold expectedCalls at h
  rw [List.mem_flatMap] at h
  obtain ⟨s, hs, hc⟩ := h
  cases hl : liveRecord live s with
  | some stream =>
    rw [hl] at hc
    cases online with
    | some f =>
      simp only [List.mem_singleton] at hc
      rw [hc, Call.subject, (liveRecord_some hl).2]
      exact hs
    | none => simp at hc
  | none =>
    rw [hl] at hc
    cases offline with
    | some g =>
      simp only [List.mem_singleton] at hc
      rw [hc, Call.subject]
      exact hs
    | none => simp at hc

/-! ## Registry claims -/

/-- C1 (the code departs from the claim): a call `AddStreamer("A", "A", "B")` on
the client returned by `New` leaves the registry `["A"]`, and so do the calls
`AddStreamer("A")`, `AddStreamer("A", "B")`; the identifier "B" that the claim
puts in second place is never registered, and a further call
`AddStreamer("B")` never returns. -/
theorem AddStreamer_duplicate_drops_later_identifiers :
    (exampleClient.AddStreamer ["A", "A", "B"]).map (fun c => c.streamIDs) = some ["A"] ∧
    specAddAll [] [["A", "A", "B"]] = ["A", "B"] ∧
    (addAll exampleClient [["A"], ["A", "B"]]).map (fun c => c.streamIDs) = some ["A"] ∧
    specAddAll [] [["A"], ["A", "B"]] = ["A", "B"] ∧
    (addAll exampleClient [["A"], ["A", "B"], ["B"]]).isNone = true := by
  decide

/-- C9: the registry of a client returned by `New` has no duplicate, and for a
client whose registry has no duplicate every operation (`AddStreamer` with any
arguments, a check cycle, `SetInterval`, a handler registration, `CheckNow`,
`Stop`) that returns leaves a registry without duplicates of which the old
registry is an initial segment: nothing is removed or reordered.  With the
registry lock free, `AddStreamer` and a check cycle do return. -/
theorem registry_stays_duplicate_free {F G H : Type}
    (NewClient : Options → Option H × Option String) (params : Option Params)
    (c : Client F G H) (op : Op F G H) (hc : c.streamIDs.Nodup) :
    (∀ c0 : Client F G H, (New NewClient params).1 = some c0 → c0.streamIDs.Nodup) ∧
    (∀ c1, op.run c = some c1 → c1.streamIDs.Nodup ∧ c.streamIDs <+: c1.streamIDs) ∧
    (c.siMu.free → ∀ userID, (c.AddStreamer userID).isSome = true) ∧
    (c.siMu.free → ∀ GetStreams, (c.check GetStreams).isSome = true) := by
  refine ⟨?_, ?_, ?_, ?_⟩
  · intro c0 h0
    cases params with
    | none => simp [New] at h0
    | some p =>
      simp only [New, Option.some.injEq] at h0
      rw [← h0]
      exact List.nodup_nil
  · intro c1 h1
    rcases Op_run_registry op c c1 h1 with h | ⟨userID, h⟩
    · rw [h]; exact ⟨hc, List.prefix_refl _⟩
    · rw [h]; exact ⟨loop_nodup userID _ hc, loop_extends userID _⟩
  · intro hf userID
    exact AddStreamer_returns c userID hf
  · intro hf GetStreams
    exact check_returns c GetStreams hf.1

/-- Witness of C9: on the example client with registry `["A"]`, the call
`AddStreamer("B", "A", "C")` returns with registry `["A", "B"]`. -/
theorem registry_stays_duplicate_free_witness :
    ["A"].Nodup ∧ ["A", "B"].Nodup ∧ ["A"] <+: ["A", "B"] :=
  ⟨by decide,
   ((registry_stays_duplicate_free rejectEmptyID none
      { exampleClient with streamIDs := ["A"] } (Op.AddStreamer ["B", "A", "C"]) (by decide)).2.1
      { exampleClient with streamIDs := ["A", "B"], siMu := { w := true, r := 0 } } rfl).1,
   ((registry_stays_duplicate_free rejectEmptyID none
      { exampleClient with streamIDs := ["A"] } (Op.AddStreamer ["B", "A", "C"]) (by decide)).2.1
      { exampleClient with streamIDs := ["A", "B"], siMu := { w := true, r := 0 } } rfl).2⟩

/-- C10 (the code departs from the claim): `AddStreamer("A")` on a registry that
already holds "A" returns with the write lock still held; a following
`AddStreamer` call and a following check cycle never get the lock.  A call
without an already registered identifier does release the lock. -/
theorem AddStreamer_duplicate_keeps_write_lock :
    (addAll exampleClient [["A"], ["A"]]).map (fun c => (c.streamIDs, c.siMu)) =
      some (["A"], { w := true, r := 0 }) ∧
    ((addAll exampleClient [["A"], ["A"]]).bind (fun c => c.AddStreamer ["B"])).isNone = true ∧
    ((addAll exampleClient [["A"], ["A"]]).bind (fun c => c.check (liveOf []))).isNone = true ∧
    (addAll exampleClient [["A"], ["B"]]).map (fun c => (c.streamIDs, c.siMu)) =
      some (["A", "B"], { w := false, r := 0 }) := by
  decide

/-! ## Check cycle claims -/

/-- C2: when the read lock can be taken and the query succeeds, the check cycle
leaves the client as it was, and the handler invocations it makes are the
snapshot traversed in order: an identifier with a record among the returned
live records gives one online call with that record (nothing without an online
handler), an identifier without one gives one offline call with the identifier
(nothing without an offline handler).  The record passed is one of the
returned records and carries the identifier; an identifier counts as absent
exactly when no returned record carries it; every invocation is about an
identifier of the snapshot. -/
theorem check_calls_follow_snapshot {F G H : Type} (c : Client F G H)
    (GetStreams : Collaborator H) (resp : StreamsResponse)
    (hlock : c.siMu.w = false)
    (hq : GetStreams c.hx (check.params c.streamIDs) = Except.ok resp) :
    c.check GetStreams = some (c,
      { queries := [check.params c.streamIDs],
        calls := expectedCalls c.onOnlineCallback c.onOfflineCallback
          resp.Data.Streams c.streamIDs }) ∧
    (∀ s stream, liveRecord resp.Data.Streams s = some stream →
      stream ∈ resp.Data.Streams ∧ stream.UserID = s) ∧
    (∀ s, liveRecord resp.Data.Streams s = none ↔
      ∀ stream ∈ resp.Data.Streams, stream.UserID ≠ s) ∧
    (∀ call ∈ expectedCalls c.onOnlineCallback c.onOfflineCallback
        resp.Data.Streams c.streamIDs, call.subject ∈ c.streamIDs) := by
  refine ⟨?_, ?_, ?_, ?_⟩
  · rw [check_eq c GetStreams hlock, hq]
    simp only [dispatch_eq, List.nil_append]
  · intro s stream h
    exact liveRecord_some h
  · intro s
    exact liveRecord_none _ s
  · intro call h
    exact expectedCalls_subject _ _ _ _ call h

/-- Witness of C2: registry `["A", "B"]`, live `{"A"}` gives online(A) and then
offline(B), also when a record of the unregistered channel "Z" is returned. -/
theorem check_calls_follow_snapshot_witness :
    (watching.check (liveOf [streamA, { ID := "2", UserID := "Z", UserName := "z" }])).map
        (fun r => r.2.calls) =
      some [Call.online "on" streamA, Call.offline "off" "B"] := by
  rw [(check_calls_follow_snapshot watching
    (liveOf [streamA, { ID := "2", UserID := "Z", UserName := "z" }])
    { Data := { Streams := [streamA, { ID := "2", UserID := "Z", UserName := "z" }] } }
    rfl rfl).1]
  decide

/-- C3: when the read lock can be taken and the query returns an error, the
check cycle makes no handler invocation and returns the client unchanged
(registry, handlers, interval and all other fields), so the next cycle is the
cycle that would have run without the failed one. -/
theorem check_query_error_changes_nothing {F G H : Type} (c : Client F G H)
    (GetStreams : Collaborator H) (e : String)
    (hlock : c.siMu.w = false)
    (hq : GetStreams c.hx (check.params c.streamIDs) = Except.error e) :
    ∃ c1 log, c.check GetStreams = some (c1, log) ∧ log.calls = [] ∧ c1 = c ∧
      c1.streamIDs = c.streamIDs ∧ c1.onOnlineCallback = c.onOnlineCallback ∧
      c1.onOfflineCallback = c.onOfflineCallback ∧ c1.interval = c.interval ∧
      ∀ next : Collaborator H, c1.check next = c.check next := by
  refine ⟨c, _, check_eq c GetStreams hlock, ?_, rfl, rfl, rfl, rfl, rfl, fun _ => rfl⟩
  simp only [hq]

/-- Witness of C3: registry `["A", "B"]` with both handlers set and a failing
query: the cycle returns and makes no invocation. -/
theorem check_query_error_changes_nothing_witness :
    (watching.check failing).map (fun r => r.2.calls) = some [] := by
  obtain ⟨c1, log, h, hcalls, -⟩ :=
    check_query_error_changes_nothing watching failing "request failed" rfl rfl
  rw [h, Option.map_some', hcalls]

theorem loop_fresh (userID : List String) :
    ∀ streamIDs : List String, (streamIDs ++ userID).Nodup →
      AddStreamer.loop streamIDs userID = (streamIDs ++ userID, false) := by
  induction userID with
  | nil => intro l _; simp [AddStreamer.loop]
  | cons uid rest ih =>
    intro l h
    unfold AddStreamer.loop
    have hn : uid ∉ l := by
      intro hm
      rw [List.nodup_append] at h
      exact h.2.2 hm (List.mem_cons_self uid rest)
    have hf : ¬ AddStreamer.found uid l = true := fun hf => hn ((found_iff uid l).1 hf)
    rw [if_neg hf]
    have h2 : ((l ++ [uid]) ++ rest).Nodup := by
      rw [List.append_assoc]; exact h
    rw [ih (l ++ [uid]) h2, List.append_assoc]
    rfl

theorem AddStreamer_fresh {F G H : Type} (c : Client F G H) (userID : List String)
    (hf : c.siMu.free) (h : (c.streamIDs ++ userID).Nodup) :
    c.AddStreamer userID = some { c with streamIDs := c.streamIDs ++ userID } := by
  cases c with
  | mk ids mu p hx sc fc i f g =>
    cases mu with
    | mk w r =>
      obtain ⟨hw, hr⟩ := hf
      simp only at hw hr h
      subst hw; subst hr
      simp only [Client.AddStreamer, RWMutex.Lock, loop_fresh userID ids h]
      rfl

theorem manyIDs_nodup (n : Nat) : (manyIDs n).Nodup := by
  unfold manyIDs
  refine (List.nodup_range n).map ?_
  intro a b hab
  have h1 := congrArg (fun t : String => t.data.length) hab
  simpa using h1

theorem manyIDs_length (n : Nat) : (manyIDs n).length = n := by
  simp [manyIDs]

theorem expectedCalls_handler {F G : Type} (online : Option F) (offline : Option G)
    (live : List Stream) (snapshot : List String) (call : Call F G)
    (h : call ∈ expectedCalls online offline live snapshot) :
    (∀ f stream, call = Call.online f stream → online = some f) ∧
    (∀ g s, call = Call.offline g s → offline = some g) := by
  unfold expectedCalls at h
  rw [List.mem_flatMap] at h
  obtain ⟨s, _, hc⟩ := h
  cases hl : liveRecord live s with
  | some stream =>
    rw [hl] at hc
    cases online with
    | some f =>
      simp only [List.mem_singleton] at hc
      subst hc
      exact ⟨fun f1 s1 e => (by cases e; rfl), fun g1 s1 e => (by cases e)⟩
    | none => simp at hc
  | none =>
    rw [hl] at hc
    cases offline with
    | some g =>
      simp only [List.mem_singleton] at hc
      subst hc
      exact ⟨fun f1 s1 e => (by cases e), fun g1 s1 e => (by cases e; rfl)⟩
    | none => simp at hc

theorem cycleLog_calls {F G H : Type} (c : Client F G H) (GetStreams : Collaborator H)
    (h : c.siMu.w = false) (call : Call F G) (hc : call ∈ (cycleLog c GetStreams).calls) :
    ∃ live, call ∈ expectedCalls c.onOnlineCallback c.onOfflineCallback live c.streamIDs := by
  unfold cycleLog at hc
  rw [check_eq c GetStreams h] at hc
  simp only at hc
  cases hq : GetStreams c.hx (check.params c.streamIDs) with
  | error e => rw [hq] at hc; simp at hc
  | ok resp =>
    rw [hq] at hc
    simp only [dispatch_eq, List.nil_append] at hc
    exact ⟨_, hc⟩

/-- C5 (the claim as stated fails): after one call of `AddStreamer` with 101
distinct identifiers on the client returned by `New`, the check cycle issues
one query, with `First = 100` and status "live", that carries all 101
identifiers. -/
theorem check_query_carries_101_identifiers :
    (manyIDs 101).Nodup ∧
    ((exampleClient.AddStreamer (manyIDs 101)).bind (fun c => c.check (liveOf []))).map
        (fun r => r.2.queries.map (fun q => (q.First, q.Typ, q.UserIDs.length))) =
      some [(100, "live", 101)] := by
  refine ⟨manyIDs_nodup 101, ?_⟩
  rw [AddStreamer_fresh exampleClient (manyIDs 101) (by decide) (manyIDs_nodup 101)]
  simp only [Option.some_bind]
  rw [check_eq _ _ rfl]
  simp only [Option.map_some', List.map_cons, List.map_nil, check.params]
  rw [show exampleClient.streamIDs = [] from rfl, List.nil_append, manyIDs_length]

/-- C5 (as amended): when the read lock can be taken, a check cycle issues
exactly one query; its result limit `First` is 100, its status filter is
"live" and its identifier list is the registry snapshot, whole and in order.
The query carries at most 100 identifiers when the registry holds at most
100. -/
theorem check_issues_one_query_for_the_snapshot {F G H : Type} (c : Client F G H)
    (GetStreams : Collaborator H) (hlock : c.siMu.w = false) :
    ∃ c1 log, c.check GetStreams = some (c1, log) ∧
      log.queries = [{ First := 100, Typ := "live", UserIDs := c.streamIDs }] ∧
      (c.streamIDs.length ≤ 100 → ∀ q ∈ log.queries, q.UserIDs.length ≤ 100) := by
  refine ⟨c, _, check_eq c GetStreams hlock, rfl, ?_⟩
  intro hlen q hq
  simp only [List.mem_singleton] at hq
  rw [hq]
  exact hlen

/-- Witness of C5 (as amended): the registry `["A", "B"]` is queried with one
query for `["A", "B"]`. -/
theorem check_issues_one_query_for_the_snapshot_witness :
    (watching.check (liveOf [streamA])).map (fun r => r.2.queries) =
      some [{ First := 100, Typ := "live", UserIDs := ["A", "B"] }] := by
  obtain ⟨c1, log, h, hq, -⟩ :=
    check_issues_one_query_for_the_snapshot watching (liveOf [streamA]) rfl
  rw [h, Option.map_some', hq]
  rfl

theorem check_none_of_writer {F G H : Type} (c : Client F G H) (GetStreams : Collaborator H)
    (h : c.siMu.w = true) : c.check GetStreams = none := by
  unfold Client.check RWMutex.RLock
  simp [h]

theorem cycleLog_handlers {F G H : Type} (c : Client F G H) (GetStreams : Collaborator H)
    (call : Call F G) (hc : call ∈ (cycleLog c GetStreams).calls) :
    (∀ f stream, call = Call.online f stream → c.onOnlineCallback = some f) ∧
    (∀ g s, call = Call.offline g s → c.onOfflineCallback = some g) := by
  cases hw : c.siMu.w with
  | true =>
    unfold cycleLog at hc
    rw [check_none_of_writer c GetStreams hw] at hc
    simp at hc
  | false =>
    obtain ⟨live, hl⟩ := cycleLog_calls c GetStreams hw call hc
    exact expectedCalls_handler _ _ _ _ _ hl

theorem AddStreamer_handlers {F G H : Type} (c c1 : Client F G H) (userID : List String)
    (h : c.AddStreamer userID = some c1) :
    c1.onOnlineCallback = c.onOnlineCallback ∧ c1.onOfflineCallback = c.onOfflineCallback := by
  unfold Client.AddStreamer at h
  cases hl : c.siMu.Lock with
  | none => rw [hl] at h; cases h
  | some mu =>
    rw [hl] at h
    rcases hloop : AddStreamer.loop c.streamIDs userID with ⟨ids, b⟩
    rw [hloop] at h
    cases b <;> simp at h <;> rw [← h] <;> exact ⟨rfl, rfl⟩

theorem check_handlers {F G H : Type} (c c1 : Client F G H) (GetStreams : Collaborator H)
    (log : CheckLog F G) (h : c.check GetStreams = some (c1, log)) :
    c1.onOnlineCallback = c.onOnlineCallback ∧ c1.onOfflineCallback = c.onOfflineCallback := by
  cases hw : c.siMu.w with
  | true => rw [check_none_of_writer c GetStreams hw] at h; cases h
  | false =>
    rw [check_eq c GetStreams hw] at h
    simp only [Option.some.injEq, Prod.mk.injEq] at h
    rw [← h.1]
    exact ⟨rfl, rfl⟩

theorem Op_run_handlers {F G H : Type} (op : Op F G H) (c c1 : Client F G H)
    (h : op.run c = some c1) :
    (op.registersOnline = false → c1.onOnlineCallback = c.onOnlineCallback) ∧
    (op.registersOffline = false → c1.onOfflineCallback = c.onOfflineCallback) := by
  cases op with
  | AddStreamer userID =>
    exact ⟨fun _ => (AddStreamer_handlers c c1 userID h).1,
      fun _ => (AddStreamer_handlers c c1 userID h).2⟩
  | check GetStreams =>
    simp only [Op.run, Option.map_eq_some'] at h
    obtain ⟨⟨c2, log⟩, h2, rfl⟩ := h
    exact ⟨fun _ => (check_handlers c c2 GetStreams log h2).1,
      fun _ => (check_handlers c c2 GetStreams log h2).2⟩
  | SetInterval d =>
    simp [Op.run, Client.SetInterval] at h
    rw [← h]
    exact ⟨fun _ => rfl, fun _ => rfl⟩
  | OnOnlineCallback f =>
    simp [Op.run, Client.OnOnlineCallback] at h
    rw [← h]
    exact ⟨fun hf => (by simp [Op.registersOnline] at hf), fun _ => rfl⟩
  | OnOfflineCallback f =>
    simp [Op.run, Client.OnOfflineCallback] at h
    rw [← h]
    exact ⟨fun _ => rfl, fun hf => (by simp [Op.registersOffline] at hf)⟩
  | CheckNow =>
    simp only [Op.run, Client.CheckNow] at h
    split at h
    · cases h
    · simp at h
      rw [← h]
      exact ⟨fun _ => rfl, fun _ => rfl⟩
  | Stop =>
    simp only [Op.run, Client.Stop] at h
    split at h
    · cases h
    · simp at h
      rw [← h]
      exact ⟨fun _ => rfl, fun _ => rfl⟩

theorem runAll_handlers {F G H : Type} (ops : List (Op F G H)) :
    ∀ c c1 : Client F G H, runAll ops c = some c1 →
      ((∀ op ∈ ops, op.registersOnline = false) → c1.onOnlineCallback = c.onOnlineCallback) ∧
      ((∀ op ∈ ops, op.registersOffline = false) →
        c1.onOfflineCallback = c.onOfflineCallback) := by
  induction ops with
  | nil =>
    intro c c1 h
    simp only [runAll, Option.some.injEq] at h
    rw [← h]
    exact ⟨fun _ => rfl, fun _ => rfl⟩
  | cons op rest ih =>
    intro c c1 h
    rw [runAll] at h
    cases hop : op.run c with
    | none => rw [hop] at h; cases h
    | some c2 =>
      rw [hop] at h
      simp only at h
      have h1 := Op_run_handlers op c c2 hop
      have h2 := ih c2 c1 h
      constructor
      · intro hall
        rw [h2.1 (fun o ho => hall o (List.mem_cons_of_mem op ho)),
          h1.1 (hall op (List.mem_cons_self op rest))]
      · intro hall
        rw [h2.2 (fun o ho => hall o (List.mem_cons_of_mem op ho)),
          h1.2 (hall op (List.mem_cons_self op rest))]

/-- C8: registering the online handler `g` after the online handler `f` gives
the client that registering `g` alone gives: the online slot holds `g`, and
the offline handler, the registry and the interval are as before.  The check
cycle that follows invokes `g` in each of its online invocations, and so does
every cycle after any further operations that register no online handler.  The
same holds for the offline handler with the roles exchanged. -/
theorem later_handler_replaces_earlier {F G H : Type} (c : Client F G H)
    (f g : Option F) (f2 g2 : Option G) (GetStreams : Collaborator H)
    (hlock : c.siMu.w = false) :
    ((c.OnOnlineCallback f).OnOnlineCallback g = c.OnOnlineCallback g ∧
     ((c.OnOnlineCallback f).OnOnlineCallback g).onOnlineCallback = g ∧
     ((c.OnOnlineCallback f).OnOnlineCallback g).onOfflineCallback = c.onOfflineCallback ∧
     ((c.OnOnlineCallback f).OnOnlineCallback g).streamIDs = c.streamIDs ∧
     ((c.OnOnlineCallback f).OnOnlineCallback g).interval = c.interval ∧
     ((c.OnOnlineCallback f).OnOnlineCallback g).check GetStreams =
       some ((c.OnOnlineCallback f).OnOnlineCallback g,
         cycleLog ((c.OnOnlineCallback f).OnOnlineCallback g) GetStreams) ∧
     (∀ h stream,
       Call.online h stream ∈
         (cycleLog ((c.OnOnlineCallback f).OnOnlineCallback g) GetStreams).calls →
       g = some h) ∧
     (∀ (ops : List (Op F G H)) (c3 : Client F G H) (later : Collaborator H),
       (∀ op ∈ ops, op.registersOnline = false) →
       runAll ops ((c.OnOnlineCallback f).OnOnlineCallback g) = some c3 →
       ∀ h stream, Call.online h stream ∈ (cycleLog c3 later).calls → g = some h)) ∧
    ((c.OnOfflineCallback f2).OnOfflineCallback g2 = c.OnOfflineCallback g2 ∧
     ((c.OnOfflineCallback f2).OnOfflineCallback g2).onOfflineCallback = g2 ∧
     ((c.OnOfflineCallback f2).OnOfflineCallback g2).onOnlineCallback = c.onOnlineCallback ∧
     ((c.OnOfflineCallback f2).OnOfflineCallback g2).streamIDs = c.streamIDs ∧
     ((c.OnOfflineCallback f2).OnOfflineCallback g2).interval = c.interval ∧
     ((c.OnOfflineCallback f2).OnOfflineCallback g2).check GetStreams =
       some ((c.OnOfflineCallback f2).OnOfflineCallback g2,
         cycleLog ((c.OnOfflineCallback f2).OnOfflineCallback g2) GetStreams) ∧
     (∀ h s,
       Call.offline h s ∈
         (cycleLog ((c.OnOfflineCallback f2).OnOfflineCallback g2) GetStreams).calls →
       g2 = some h) ∧
     (∀ (ops : List (Op F G H)) (c3 : Client F G H) (later : Collaborator H),
       (∀ op ∈ ops, op.registersOffline = false) →
       runAll ops ((c.OnOfflineCallback f2).OnOfflineCallback g2) = some c3 →
       ∀ h s, Call.offline h s ∈ (cycleLog c3 later).calls → g2 = some h)) := by
  refine ⟨⟨rfl, rfl, rfl, rfl, rfl, check_eq_cycleLog _ _ hlock, ?_, ?_⟩,
    ⟨rfl, rfl, rfl, rfl, rfl, check_eq_cycleLog _ _ hlock, ?_, ?_⟩⟩
  · intro h stream hm
    exact (cycleLog_handlers ((c.OnOnlineCallback f).OnOnlineCallback g) GetStreams _ hm).1
      h stream rfl
  · intro ops c3 later hops hrun h stream hm
    have h3 := (runAll_handlers ops _ c3 hrun).1 hops
    have h4 := (cycleLog_handlers c3 later _ hm).1 h stream rfl
    rw [h3] at h4
    exact h4
  · intro h s hm
    exact (cycleLog_handlers ((c.OnOfflineCallback f2).OnOfflineCallback g2) GetStreams _ hm).2
      h s rfl
  · intro ops c3 later hops hrun h s hm
    have h3 := (runAll_handlers ops _ c3 hrun).2 hops
    have h4 := (cycleLog_handlers c3 later _ hm).2 h s rfl
    rw [h3] at h4
    exact h4

/-- Witness of C8: on the registry `["A", "B"]` with "A" live, after the online
handlers "old" and then "new" are registered the cycle invokes "new" for "A"
and the offline handler for "B". -/
theorem later_handler_replaces_earlier_witness :
    (((watching.OnOnlineCallback (some "old")).OnOnlineCallback (some "new")).check
        (liveOf [streamA])).map (fun r => r.2.calls) =
      some [Call.online "new" streamA, Call.offline "off" "B"] := by
  rw [(later_handler_replaces_earlier watching (some "old") (some "new") none none
    (liveOf [streamA]) rfl).1.2.2.2.2.2.1]
  decide

/-! ## Rate-limit and construction claims -/

theorem int64_of_range (x : Int) (h1 : -(2 ^ 63) ≤ x) (h2 : x < 2 ^ 63) : int64 x = x := by
  unfold int64
  omega

/-- C4 (the claim as stated fails): with remaining budget 0, current time 0 and
reset timestamp 9223372037, the nanosecond count `9223372037 * 10^9` wraps
around to a negative `time.Duration`, so `time.Sleep` returns at once: the
caller is not suspended although the reset lies 9223372037 seconds ahead. -/
theorem rateLimitCallback_far_reset_does_not_suspend :
    (0 : Int) < 9223372037 ∧ (9223372037 : Int) < 2 ^ 63 ∧
    (rateLimitCallback { RateLimitRemaining := 0, RateLimitReset := 9223372037 } 0).sleep =
      some (-9223372036709551616) ∧
    (rateLimitCallback { RateLimitRemaining := 0, RateLimitReset := 9223372037 } 0).suspendedNanos
      = 0 ∧
    (rateLimitCallback { RateLimitRemaining := 0, RateLimitReset := 9223372037 } 0).suspendedNanos
      ≠ (9223372037 - 0) * Second := by
  decide

/-- C4 (as amended): for a reset timestamp that is a 64-bit Unix time and any
current time, `rateLimitCallback` returns no error in every case; it does not
sleep when the remaining budget is greater than 0 or when the reset timestamp
is not after the current time; and when the remaining budget is 0 and the
reset timestamp is after the current time by at most 9223372036 seconds, it
suspends the caller for exactly (reset - now) seconds. -/
theorem rateLimitCallback_suspends_until_reset (lastResponse : Response) (now : Int)
    (hr1 : -(2 ^ 63) ≤ lastResponse.RateLimitReset) (hr2 : lastResponse.RateLimitReset < 2 ^ 63) :
    (rateLimitCallback lastResponse now).err = none ∧
    (lastResponse.RateLimitRemaining > 0 →
      (rateLimitCallback lastResponse now).sleep = none ∧
      (rateLimitCallback lastResponse now).suspendedNanos = 0) ∧
    (lastResponse.RateLimitReset ≤ now →
      (rateLimitCallback lastResponse now).sleep = none ∧
      (rateLimitCallback lastResponse now).suspendedNanos = 0) ∧
    (lastResponse.RateLimitRemaining = 0 → now < lastResponse.RateLimitReset →
      lastResponse.RateLimitReset - now ≤ 9223372036 →
      (rateLimitCallback lastResponse now).sleep =
        some ((lastResponse.RateLimitReset - now) * Second) ∧
      (rateLimitCallback lastResponse now).suspendedNanos =
        (lastResponse.RateLimitReset - now) * Second) := by
  have hreset : int64 lastResponse.RateLimitReset = lastResponse.RateLimitReset :=
    int64_of_range _ hr1 hr2
  refine ⟨?_, ?_, ?_, ?_⟩
  · unfold rateLimitCallback
    simp only
    split
    · rfl
    · split
      · split <;> rfl
      · rfl
  · intro hpos
    unfold rateLimitCallback
    rw [if_pos hpos]
    exact ⟨rfl, rfl⟩
  · intro hle
    unfold rateLimitCallback
    simp only [hreset]
    have hnot : ¬ now < lastResponse.RateLimitReset := not_lt.mpr hle
    rw [if_neg hnot]
    split <;> exact ⟨rfl, rfl⟩
  · intro hzero hlt hbound
    have hdiff : int64 (lastResponse.RateLimitReset - now) = lastResponse.RateLimitReset - now :=
      int64_of_range _ (by omega) (by omega)
    have hmul : int64 ((lastResponse.RateLimitReset - now) * Second) =
        (lastResponse.RateLimitReset - now) * Second := by
      apply int64_of_range
      · unfold Second; omega
      · unfold Second; omega
    have hpos : (lastResponse.RateLimitReset - now) > 0 := by omega
    have hnotpos : ¬ lastResponse.RateLimitRemaining > 0 := by omega
    have hsleep : (rateLimitCallback lastResponse now).sleep =
        some ((lastResponse.RateLimitReset - now) * Second) := by
      unfold rateLimitCallback
      simp only [hreset, hdiff, hmul]
      rw [if_neg hnotpos, if_pos hlt, if_pos hpos]
    refine ⟨hsleep, ?_⟩
    unfold RateLimitRun.suspendedNanos
    rw [hsleep]
    simp only
    unfold sleepNanos
    have : ¬ (lastResponse.RateLimitReset - now) * Second ≤ 0 := by
      unfold Second; omega
    rw [if_neg this]

/-- Witness of C4 (as amended): budget 0, current time 1700000000, reset at
1700000030: the caller is suspended for 30 seconds. -/
theorem rateLimitCallback_suspends_until_reset_witness :
    (rateLimitCallback { RateLimitRemaining := 0, RateLimitReset := 1700000030 }
      1700000000).suspendedNanos = 30 * Second :=
  ((rateLimitCallback_suspends_until_reset
    { RateLimitRemaining := 0, RateLimitReset := 1700000030 } 1700000000
    (by decide) (by decide)).2.2.2 rfl (by decide) (by decide)).2

/-- C7 (the claim as stated fails): with a helix constructor that rejects an
empty client identifier, `New` called with non-nil params whose credential
strings are empty returns an error (together with a client whose helix handle
is nil). -/
theorem New_empty_credentials_returns_error :
    (New rejectEmptyID (some { ClientID := "", OAuth := "" }) :
        Option (Client String String Unit) × Option String).2 =
      some "A client ID was not provided but is required" ∧
    ((New rejectEmptyID (some { ClientID := "", OAuth := "" }) :
        Option (Client String String Unit) × Option String).1.map (fun c => c.hx)) =
      some none := by
  decide

/-- C7 (as amended): `New` returns no client and the error "missing option" for
nil params.  For non-nil params, whatever the credential strings, it returns a
client with an empty registry, a free registry lock, no handlers, empty stop
and force-check channels of capacity 1 and an interval of one minute; the
client holds the params and the handle that `helix.NewClient` returned, and the
error returned is the error of `helix.NewClient`, so `New` fails exactly when
the helix constructor fails. -/
theorem New_returns_fresh_client_and_helix_error {F G H : Type}
    (NewClient : Options → Option H × Option String) (p : Params) :
    (New NewClient none : Option (Client F G H) × Option String) =
      (none, some "missing option") ∧
    (New NewClient (some p) : Option (Client F G H) × Option String).2 =
      (NewClient { ClientID := p.ClientID, UserAccessToken := p.OAuth,
                   RateLimitFunc := rateLimitCallback }).2 ∧
    ∃ c : Client F G H, (New NewClient (some p)).1 = some c ∧
      c.streamIDs = [] ∧ c.siMu.free ∧
      c.onOnlineCallback = none ∧ c.onOfflineCallback = none ∧
      c.stopChan = { cap := 1, len := 0 } ∧ c.forceCheckChan = { cap := 1, len := 0 } ∧
      c.interval = 60 * 1000000000 ∧ c.params = some p ∧
      c.hx = (NewClient { ClientID := p.ClientID, UserAccessToken := p.OAuth,
                          RateLimitFunc := rateLimitCallback }).1 := by
  refine ⟨rfl, rfl, _, rfl, rfl, ⟨rfl, rfl⟩, rfl, rfl, rfl, rfl, rfl, rfl, rfl⟩

/-! ## Poll loop claim -/

theorem countChecks_append {F G : Type} (l1 l2 : List (Action F G)) :
    countChecks (l1 ++ l2) = countChecks l1 + countChecks l2 := by
  induction l1 with
  | nil => simp [countChecks]
  | cons a rest ih =>
    rw [List.cons_append]
    cases a with
    | check log => rw [countChecks, countChecks, ih]; omega
    | NewTicker d => rw [countChecks, countChecks, ih]
    | tickStop => rw [countChecks, countChecks, ih]

theorem countChecks_map_check {F G : Type} {α : Type} (f : α → CheckLog F G) (l : List α) :
    countChecks (l.map (fun i => Action.check (f i))) = l.length := by
  induction l with
  | nil => rfl
  | cons a rest ih => simp only [List.map_cons, countChecks, ih, List.length_cons]

theorem Start_loop_run {F G H : Type} (env : Nat → Collaborator H) (c : Client F G H)
    (hlock : c.siMu.w = false) (evs : List LoopEvent) :
    ∀ (k : Nat) (trace : List (Action F G)) (rest : List LoopEvent),
      (∀ e ∈ evs, e = LoopEvent.tick ∨ e = LoopEvent.forceCheck) →
      Start.loop env k c trace (evs ++ LoopEvent.stop :: rest) =
        { trace := trace ++
            (List.range evs.length).map (fun i => Action.check (cycleLog c (env (k + i)))) ++
            [Action.tickStop],
          exit := Exit.returned,
          client := c,
          pending := rest } := by
  induction evs with
  | nil =>
    intro k trace rest _
    simp [Start.loop]
  | cons e evs ih =>
    intro k trace rest hev
    have hrest : ∀ e1 ∈ evs, e1 = LoopEvent.tick ∨ e1 = LoopEvent.forceCheck :=
      fun e1 h1 => hev e1 (List.mem_cons_of_mem e h1)
    have hshape : trace ++ [Action.check (cycleLog c (env k))] ++
        (List.range evs.length).map (fun i => Action.check (cycleLog c (env (k + 1 + i)))) =
        trace ++ (List.range (evs.length + 1)).map
          (fun i => Action.check (cycleLog c (env (k + i)))) := by
      rw [List.range_succ_eq_map, List.map_cons, List.map_map, List.append_assoc]
      simp only [List.singleton_append, Nat.add_zero, Function.comp_def, Nat.succ_eq_add_one]
      congr 2
      apply List.map_congr_left
      intro i _
      rw [Nat.add_assoc, Nat.add_comm 1 i]
    rcases hev e (List.mem_cons_self e evs) with h | h
    · subst h
      rw [List.cons_append, Start.loop, check_eq_cycleLog c (env k) hlock]
      simp only
      rw [ih (k + 1) _ rest hrest, List.length_cons, hshape]
    · subst h
      rw [List.cons_append, Start.loop, check_eq_cycleLog c (env k) hlock]
      simp only
      rw [ih (k + 1) _ rest hrest, List.length_cons, hshape]

/-- C6: for a client whose registry lock can be taken and whose interval is
positive, and for every sequence of n tick or force-check events followed by a
stop event, `Start` performs one check, creates the ticker with the client's
interval, performs one check per event, and on the stop event stops the ticker
and returns: n + 1 checks in all, none after the stop, the events after the
stop left unconsumed and the client as it was.  The check with number k runs
against the collaborator's behaviour `env k`. -/
theorem Start_checks_once_then_per_event {F G H : Type} (c : Client F G H)
    (env : Nat → Collaborator H) (evs rest : List LoopEvent)
    (hlock : c.siMu.w = false) (hinterval : 0 < c.interval)
    (hev : ∀ e ∈ evs, e = LoopEvent.tick ∨ e = LoopEvent.forceCheck) :
    (c.Start env (evs ++ LoopEvent.stop :: rest)).trace =
      [Action.check (cycleLog c (env 0)), Action.NewTicker c.interval] ++
        (List.range evs.length).map (fun i => Action.check (cycleLog c (env (1 + i)))) ++
        [Action.tickStop] ∧
    countChecks (c.Start env (evs ++ LoopEvent.stop :: rest)).trace = evs.length + 1 ∧
    (c.Start env (evs ++ LoopEvent.stop :: rest)).exit = Exit.returned ∧
    (c.Start env (evs ++ LoopEvent.stop :: rest)).pending = rest ∧
    (c.Start env (evs ++ LoopEvent.stop :: rest)).client = c := by
  have hnot : ¬ c.interval ≤ 0 := not_le.mpr hinterval
  have hrun : c.Start env (evs ++ LoopEvent.stop :: rest) =
      { trace := [Action.check (cycleLog c (env 0)), Action.NewTicker c.interval] ++
          (List.range evs.length).map (fun i => Action.check (cycleLog c (env (1 + i)))) ++
          [Action.tickStop],
        exit := Exit.returned,
        client := c,
        pending := rest } := by
    unfold Client.Start
    rw [check_eq_cycleLog c (env 0) hlock]
    simp only [if_neg hnot]
    exact Start_loop_run env c hlock evs 1 _ rest hev
  rw [hrun]
  refine ⟨rfl, ?_, rfl, rfl, rfl⟩
  simp only
  rw [countChecks_append, countChecks_append, countChecks_map_check, List.length_range]
  simp only [countChecks]
  omega

/-- Witness of C6: the events tick, force-check, stop, tick on the example
client: three checks, then `Start` returns and leaves the last tick. -/
theorem Start_checks_once_then_per_event_witness :
    countChecks (watching.Start (fun _ => liveOf [streamA])
      ([LoopEvent.tick, LoopEvent.forceCheck] ++ LoopEvent.stop :: [LoopEvent.tick])).trace
      = 2 + 1 ∧
    (watching.Start (fun _ => liveOf [streamA])
      ([LoopEvent.tick, LoopEvent.forceCheck] ++ LoopEvent.stop :: [LoopEvent.tick])).exit
      = Exit.returned ∧
    (watching.Start (fun _ => liveOf [streamA])
      ([LoopEvent.tick, LoopEvent.forceCheck] ++ LoopEvent.stop :: [LoopEvent.tick])).pending
      = [LoopEvent.tick] :=
  have h := Start_checks_once_then_per_event watching (fun _ => liveOf [streamA])
    [LoopEvent.tick, LoopEvent.forceCheck] [LoopEvent.tick] rfl (by decide) (by decide)
  ⟨h.2.1, h.2.2.1, h.2.2.2.1⟩

end Twitch
